import Mathlib

/-
Verification development for the YggAPI qBittorrent search plugin
(single module yggapi.py).  Python strings are modelled as List Char,
Python JSON values as an inductive Json type, and the plugin's
functions as executable Lean definitions that mirror the source line
by line.  External library calls (datetime.fromisoformat, strptime,
retrieve_url) are modelled as explicit parameters or outcome types.
-/

namespace Ygg

/-- Python str, modelled as a list of characters. -/
abbrev Str := List Char

/-- Python str.lower(), restricted to the ASCII range that Char.toLower handles. -/
def lowerStr (s : Str) : Str := s.map Char.toLower

/-- The double-quote character. -/
def dq : Char := Char.ofNat 34

/-- The single-quote character. -/
def sq : Char := Char.ofNat 39

/-- Python json values (result of json.load / json.loads). -/
inductive Json where
  | obj (fields : List (Str × Json))
  | arr (items : List Json)
  | str (s : Str)
  | num (n : Int)
  | boolv (b : Bool)
  | null

/-- Python truthiness of a json value (`if cached_url:` and `and cached_url`). -/
def Json.truthy : Json → Bool
  | .obj fields => ! fields.isEmpty
  | .arr items => ! items.isEmpty
  | .str s => ! s.isEmpty
  | .num n => n != 0
  | .boolv b => b
  | .null => false

/-- Python dict.get(key, default) on a json object's field list (first binding wins,
as dict keys are unique). -/
def objGet (fields : List (Str × Json)) (key : Str) (default : Json) : Json :=
  (fields.lookup key).getD default

/-- The exceptions whose identity matters to yggapi.py's except clauses. -/
inductive PyExn where
  | attributeError
  | typeError
  | valueError
  | jsonDecodeError
  | osError
deriving DecidableEq

/-- Outcome of datetime.fromisoformat on one string: ValueError, an
offset-naive datetime, or an offset-aware datetime (times as Unix seconds).
The library parser is environment-independent but large, so theorems
quantify over it. -/
inductive IsoParse where
  | invalid
  | naive (t : Int)
  | aware (t : Int)
deriving DecidableEq

/-- State of the cache file as seen by URLCache.get_cached_url: absent,
present but unreadable (open/read raises OSError), present but not JSON
(json.load raises JSONDecodeError), or present and parsed to a json value. -/
inductive CacheFileState where
  | missing
  | unreadable
  | badJson
  | parsed (j : Json)

/-- Key string for the timestamp field. -/
def tsKey : Str := (r"timestamp").toList

/-- Key string for the url field. -/
def urlKey : Str := (r"url").toList

/-- URLCache.get_cached_url (yggapi.py lines 262-279).
Result is Except: `.ok v` when the Python function returns v, `.error e`
when an exception escapes.  The try block catches only
(json.JSONDecodeError, ValueError, OSError):
  - missing file: the .exists() guard returns None (line 264-265);
  - unreadable / non-JSON file: OSError / JSONDecodeError, caught (line 276);
  - parsed non-dict value: cache_data.get raises AttributeError, NOT caught;
  - timestamp field not a string: fromisoformat raises TypeError, NOT caught;
  - timestamp string invalid: fromisoformat raises ValueError, caught;
  - timestamp offset-aware: datetime.now() - cached_time raises TypeError
    (naive minus aware), NOT caught;
  - otherwise return the url value iff now - ts < ttl and the url is truthy
    (line 274), else fall through to None. -/
def get_cached_url (iso : Str → IsoParse) (now ttl : Int) :
    CacheFileState → Except PyExn (Option Json)
  | .missing => .ok none
  | .unreadable => .ok none
  | .badJson => .ok none
  | .parsed (.obj fields) =>
    match objGet fields tsKey (Json.str []) with
    | .str s =>
      match iso s with
      | .invalid => .ok none
      | .aware _ => .error .typeError
      | .naive t =>
        let u := objGet fields urlKey (Json.str [])
        if now - t < ttl && u.truthy then .ok (some u) else .ok none
    | _ => .error .typeError
  | .parsed _ => .error .attributeError

/-- Outcome of one retrieve_url call in get_ygg_url: raise, or return a body. -/
inductive FetchResult where
  | raise
  | ok (body : Str)
deriving DecidableEq

/-- The literal product name that all four extraction patterns require. -/
def yggLit : Str := (r"yggtorrent").toList

/-- Python `'yggtorrent' in s.lower()` and the regex requirement that the
product name occur case-insensitively in a span. -/
def containsYgg (s : Str) : Bool := decide (yggLit <:+: lowerStr s)

/-- Case-insensitive character comparison, as re.IGNORECASE applies it to
literal pattern characters (ASCII model). -/
def charCI (c l : Char) : Bool := c.toLower == l.toLower

/-- Match a literal pattern fragment case-insensitively at the head of the
text; returns the consumed text (original case) and the rest. -/
def stripLit : Str → Str → Option (Str × Str)
  | [], s => some ([], s)
  | _ :: _, [] => none
  | l :: ls, c :: cs =>
    if charCI c l then
      match stripLit ls cs with
      | some (t, r) => some (c :: t, r)
      | none => none
    else none

/-- Regex fragment `https?://` with IGNORECASE: literal http, greedy
optional s (tried first, as the engine backtracks), then ://. -/
def stripHttpPrefix (s : Str) : Option (Str × Str) :=
  match stripLit ((r"http").toList) s with
  | none => none
  | some (t1, r1) =>
    match stripLit ((r"s://").toList) r1 with
    | some (t2, r2) => some (t1 ++ t2, r2)
    | none =>
      match stripLit ((r"://").toList) r1 with
      | some (t2, r2) => some (t1 ++ t2, r2)
      | none => none

/-- Regex fragment `(?:www\.)?yggtorrent\.` with backtracking on the
optional www. group. -/
def matchAfterScheme (r2 : Str) : Option (Str × Str) :=
  match stripLit ((r"www.").toList) r2 with
  | some (a, ra) =>
    match stripLit ((r"yggtorrent.").toList) ra with
    | some (b, rb) => some (a ++ b, rb)
    | none =>
      match stripLit ((r"yggtorrent.").toList) r2 with
      | some (b, rb) => some (b, rb)
      | none => none
  | none =>
    match stripLit ((r"yggtorrent.").toList) r2 with
    | some (b, rb) => some (b, rb)
    | none => none

/-- Pattern 1 of yggapi.py line 319, anchored at the current position:
`https?://(?:www\.)?yggtorrent\.[a-z]{2,}/?` (IGNORECASE makes [a-z]
match both cases); findall has no group here, so the whole match is
returned. -/
def p1At (s : Str) : Option Str :=
  match stripHttpPrefix s with
  | none => none
  | some (t12, r2) =>
    match matchAfterScheme r2 with
    | none => none
    | some (t3, r3) =>
      let letters := r3.takeWhile Char.isAlpha
      if letters.length < 2 then none
      else
        match r3.drop letters.length with
        | '/' :: _ => some (t12 ++ (t3 ++ (letters ++ [ '/' ])))
        | _ => some (t12 ++ (t3 ++ letters))

/-- Consume one quote character from the class `["']`. -/
def stripQuote (s : Str) : Option Str :=
  match s with
  | c :: cs => if c == dq || c == sq then some cs else none
  | [] => none

/-- Consume one double-quote character. -/
def stripDQuote (s : Str) : Option Str :=
  match s with
  | c :: cs => if c == dq then some cs else none
  | [] => none

/-- Regex \s, ASCII model (space, tab, newline, CR, FF, VT). -/
def pyIsSpace (c : Char) : Bool :=
  c.val == 32 || c.val == 9 || c.val == 10 || c.val == 13 || c.val == 12 || c.val == 11

/-- Regex fragment `\s+` (greedy; the following literal is never a
whitespace character, so maximal munch is exact). -/
def ws1 (s : Str) : Option Str :=
  let sp := s.takeWhile pyIsSpace
  if sp.isEmpty then none else some (s.drop sp.length)

/-- Regex fragment `\s*` (greedy, same remark). -/
def ws0 (s : Str) : Str := s.drop (s.takeWhile pyIsSpace).length

/-- The capture group `(https?://[^Q]*yggtorrent[^Q]*)` followed by a
closing quote from the class Q, where Q is both quotes (patterns 2 and 3)
or only the double quote (pattern 4).  After `https?://`, the two greedy
complemented classes together span exactly the maximal quote-free run;
the group matches iff that run contains the product name
case-insensitively and is terminated by a quote (end of input fails the
closing class).  The capture is the scheme prefix plus the whole run. -/
def captureAfterQuote (alsoSingle : Bool) (s : Str) : Option (Str × Str) :=
  match stripHttpPrefix s with
  | none => none
  | some (tp, r) =>
    let span := r.takeWhile (fun c => ! (c == dq || (alsoSingle && c == sq)))
    let rest := r.drop span.length
    if containsYgg span && ! rest.isEmpty then some (tp ++ span, rest) else none

/-- Pattern 2 of yggapi.py line 320, anchored:
`<meta\s+property=["']og:url["']\s+content=["'](https?://[^"']*yggtorrent[^"']*)["']`;
findall returns the capture group. -/
def p2At (s : Str) : Option Str :=
  match stripLit ((r"<meta").toList) s with
  | none => none
  | some (_, r1) =>
  match ws1 r1 with
  | none => none
  | some r2 =>
  match stripLit ((r"property=").toList) r2 with
  | none => none
  | some (_, r3) =>
  match stripQuote r3 with
  | none => none
  | some r4 =>
  match stripLit ((r"og:url").toList) r4 with
  | none => none
  | some (_, r5) =>
  match stripQuote r5 with
  | none => none
  | some r6 =>
  match ws1 r6 with
  | none => none
  | some r7 =>
  match stripLit ((r"content=").toList) r7 with
  | none => none
  | some (_, r8) =>
  match stripQuote r8 with
  | none => none
  | some r9 =>
  match captureAfterQuote true r9 with
  | none => none
  | some (cap, _) => some cap

/-- Pattern 3 of yggapi.py line 321, anchored:
`href=["'](https?://[^"']*yggtorrent[^"']*)["']`; findall returns the
capture group. -/
def p3At (s : Str) : Option Str :=
  match stripLit ((r"href=").toList) s with
  | none => none
  | some (_, r1) =>
  match stripQuote r1 with
  | none => none
  | some r2 =>
  match captureAfterQuote true r2 with
  | none => none
  | some (cap, _) => some cap

/-- Pattern 4 of yggapi.py line 322, anchored:
`"website"\s*:\s*"(https?://[^"]*yggtorrent[^"]*)"`; findall returns the
capture group. -/
def p4At (s : Str) : Option Str :=
  match stripDQuote s with
  | none => none
  | some r1 =>
  match stripLit ((r"website").toList) r1 with
  | none => none
  | some (_, r2) =>
  match stripDQuote r2 with
  | none => none
  | some r3 =>
  match ws0 r3 with
  | c :: r5 =>
    if c == ':' then
      match stripDQuote (ws0 r5) with
      | none => none
      | some r7 =>
        match captureAfterQuote false r7 with
        | none => none
        | some (cap, _) => some cap
    else none
  | [] => none

/-- re.findall's leftmost match: try the anchored matcher at each
position left to right; matches[0] is the first success. -/
def scanFirst (m : Str → Option Str) : Str → Option Str
  | [] => m []
  | c :: rest =>
    match m (c :: rest) with
    | some t => some t
    | none => scanFirst m rest

/-- Python str.rstrip('/') : remove every trailing slash (line 328). -/
def rstripSlash (s : Str) : Str :=
  (s.reverse.dropWhile (fun c => c == '/')).reverse

/-- The for-loop of yggapi.py lines 325-332 over a list of pattern
scanners: take the first pattern with a match, rstrip the first match,
keep it if it still contains the product name, otherwise fall through
to the next pattern. -/
def runPatterns : List (Str → Option Str) → Str → Option Str
  | [], _ => none
  | p :: ps, body =>
    match p body with
    | some m =>
      let u := rstripSlash m
      if containsYgg u then some u else runPatterns ps body
    | none => runPatterns ps body

/-- The url_patterns list of yggapi.py lines 318-323, in source order. -/
def patternList : List (Str → Option Str) :=
  [ scanFirst p1At, scanFirst p2At, scanFirst p3At, scanFirst p4At ]

/-- The whole extraction step of get_ygg_url on one response body. -/
def extractYggUrl (body : Str) : Option Str := runPatterns patternList body

/-- First match of the first matching pattern, before stripping and
validation (used to state claims C3 and C10). -/
def firstPatternMatch (body : Str) : Option Str :=
  match scanFirst p1At body with
  | some m => some m
  | none =>
  match scanFirst p2At body with
  | some m => some m
  | none =>
  match scanFirst p3At body with
  | some m => some m
  | none => scanFirst p4At body

/-- YggURLFetcher.get_ygg_url after a cache miss (yggapi.py lines 312-337):
fetch the profile page (any exception is caught and falls back), run the
patterns, cache and return a validated match, else return the fallback.
The result records the returned value, the number of retrieve_url calls,
and the url passed to save_url, if any. -/
def discoverViaFetch (fetch : FetchResult) (fallback : Str) :
    Json × Nat × Option Str :=
  match fetch with
  | .raise => (.str fallback, 1, none)
  | .ok body =>
    match extractYggUrl body with
    | some u => (.str u, 1, some u)
    | none => (.str fallback, 1, none)

/-- YggURLFetcher.get_ygg_url (yggapi.py lines 302-337): consult the cache
first (outside any try block, so a cache exception propagates); a truthy
cached value is returned with no fetch; otherwise discover via the
network.  Components of the ok triple: returned value, number of
retrieve_url calls, url written to the cache (if any). -/
def get_ygg_url (iso : Str → IsoParse) (now ttl : Int) (file : CacheFileState)
    (fetch : FetchResult) (fallback : Str) : Except PyExn (Json × Nat × Option Str) :=
  match get_cached_url iso now ttl file with
  | .error e => .error e
  | .ok (some u) =>
    if u.truthy then .ok (u, 0, none)
    else .ok (discoverViaFetch fetch fallback)
  | .ok none => .ok (discoverViaFetch fetch fallback)

/-- YggAPIConfig.MAX_RETRIES (yggapi.py line 89). -/
def MAX_RETRIES : Nat := 3

/-- YggAPIConfig.RETRY_DELAY_SECONDS (yggapi.py line 90). -/
def RETRY_DELAY_SECONDS : Int := 2

/-- YggAPIConfig.DEFAULT_PER_PAGE (yggapi.py line 87). -/
def DEFAULT_PER_PAGE : Int := 100

/-- YggAPIConfig.URL_CACHE_DURATION_HOURS (yggapi.py line 84). -/
def URL_CACHE_DURATION_HOURS : Int := 24

/-- Outcome of one attempt inside _fetch_page: retrieve_url raises,
json.loads raises, or a json value is parsed.  The except clause at
line 420 catches Exception, so both failure kinds retry alike. -/
inductive AttemptOutcome where
  | raise
  | badJson
  | parsed (j : Json)

/-- The retry loop of yggapi.py lines 410-428, with the attempt outcomes
given as a function of the attempt index.  The fuel argument is the
number of loop iterations left (initially MAX_RETRIES); components of the
result: returned record list, number of retrieve_url calls, list of
sleep durations in order.  A parsed list returns immediately (line 416);
a parsed non-list returns an empty page immediately (line 418); a raise
sleeps RETRY_DELAY_SECONDS and retries unless this was the last attempt
(lines 421-426); an exhausted range falls through to line 428. -/
def fetchAttempts (attempts : Nat → AttemptOutcome) :
    Nat → Nat → List Json × Nat × List Int
  | _, 0 => ([], 0, [])
  | i, fuel + 1 =>
    match attempts i with
    | .parsed (.arr items) => (items, 1, [])
    | .parsed _ => ([], 1, [])
    | _ =>
      match fuel with
      | 0 => ([], 1, [])
      | _ + 1 =>
        let r := fetchAttempts attempts (i + 1) fuel
        (r.1, r.2.1 + 1, RETRY_DELAY_SECONDS :: r.2.2)

/-- yggapi._fetch_page for one page (yggapi.py lines 397-428), starting
at attempt 0 with the configured retry budget. -/
def fetch_page (attempts : Nat → AttemptOutcome) : List Json × Nat × List Int :=
  fetchAttempts attempts 0 MAX_RETRIES

/-- yggapi._should_continue_pagination (yggapi.py lines 563-577):
continue iff the page was full and the page limit is unlimited (<= 0)
or not yet reached. -/
def should_continue_pagination (perPage maxPage page : Int) (resultsCount : Nat) : Bool :=
  ((resultsCount : Int) ≥ perPage) && (maxPage ≤ 0 || page < maxPage)

/-- The while-loop of yggapi.search (yggapi.py lines 382-395), from a
given current page, with the per-page results abstracted as a function of
the page number and the loop bounded by fuel (the Python loop has no
bound; each theorem only unfolds finitely many iterations).  Components
of the result: emitted records in order, fetched page numbers in order,
final value of _current_page. -/
def searchFrom {α : Type} (pages : Int → List α) (perPage maxPage : Int) :
    Int → Nat → List α × List Int × Int
  | page, 0 => ([], [], page)
  | page, fuel + 1 =>
    let rs := pages page
    if rs.isEmpty then ([], [page], page)
    else if should_continue_pagination perPage maxPage page rs.length then
      let r := searchFrom pages perPage maxPage (page + 1) fuel
      (rs ++ r.1, page :: r.2.1, r.2.2)
    else (rs, [page], page)

/-- The mutable plugin state that yggapi.search touches. -/
structure SearchState where
  current_page : Int

/-- yggapi.search (yggapi.py lines 372-395): line 380 overwrites
_current_page with 1 before the first fetch, so the incoming state is
discarded; then the pagination loop runs from page 1. -/
def search {α : Type} (pages : Int → List α) (perPage maxPage : Int)
    (s0 : SearchState) (fuel : Nat) : List α × List Int × SearchState :=
  let r := searchFrom pages perPage maxPage 1 fuel
  (r.1, r.2.1, ⟨r.2.2⟩)

/-- YggAPIConfig.CATEGORY_MAPPING (yggapi.py lines 94-104). -/
def CATEGORY_MAPPING : List (String × String) :=
  [ (r"all", r""), (r"movies", r"2183"), (r"tv", r"2184"), (r"music", r"2148"),
    (r"games", r"2142"), (r"anime", r"2179"), (r"software", r"2144"),
    (r"pictures", r"2191"), (r"books", r"2140") ]

/-- YggAPIConfig.YGG_CATEGORY_NAMES (yggapi.py lines 108-190). -/
def YGG_CATEGORY_NAMES : List (String × String) :=
  [ (r"2145", r"films-videos"), (r"2178", r"animation"), (r"2179", r"animation-série"),
    (r"2180", r"concert"), (r"2181", r"documentaire"), (r"2182", r"emission-tv"),
    (r"2183", r"film"), (r"2184", r"série-tv"), (r"2185", r"spectacle"),
    (r"2186", r"sport"), (r"2187", r"video-clip"),
    (r"2140", r"ebook"), (r"2151", r"ebook-audio"), (r"2152", r"bds"),
    (r"2153", r"comics"), (r"2154", r"livres"), (r"2155", r"manga"), (r"2156", r"presse"),
    (r"2139", r"audio"), (r"2147", r"karaoke"), (r"2148", r"musique"),
    (r"2149", r"samples"), (r"2150", r"podcast-radio"),
    (r"2188", r"xxx"), (r"2401", r"xxx-ebooks"), (r"2189", r"xxx-films"),
    (r"2190", r"hentai"), (r"2191", r"xxx-images"), (r"2402", r"xxx-jeux"),
    (r"2142", r"jeu-video"), (r"2167", r"jeu-autre"), (r"2159", r"jeu-linux"),
    (r"2160", r"jeu-macos"), (r"2162", r"jeu-microsoft"), (r"2163", r"jeu-nintendo"),
    (r"2165", r"jeu-smartphone"), (r"2164", r"jeu-sony"), (r"2166", r"jeu-tablette"),
    (r"2161", r"jeu-windows"),
    (r"2144", r"application"), (r"2177", r"app-autre"), (r"2176", r"formation"),
    (r"2171", r"app-linux"), (r"2172", r"app-macos"), (r"2174", r"app-smartphone"),
    (r"2175", r"app-tablette"), (r"2173", r"app-windows"),
    (r"2300", r"nulled"), (r"2304", r"nulled-divers"), (r"2303", r"nulled-mobile"),
    (r"2302", r"scripts-php-cms"), (r"2301", r"wordpress"),
    (r"2200", r"imprimante-3d"), (r"2201", r"3d-objets"), (r"2202", r"3d-personnages"),
    (r"2143", r"gps"), (r"2168", r"gps-applications"), (r"2169", r"gps-cartes"),
    (r"2170", r"gps-divers"),
    (r"2141", r"emulation"), (r"2157", r"emulateur"), (r"2158", r"rom-iso") ]

/-- YggAPIConfig.EXTENDED_CATEGORY_MAPPING (yggapi.py lines 194-252). -/
def EXTENDED_CATEGORY_MAPPING : List (String × String) :=
  [ (r"animation", r"2178"), (r"animation_series", r"2179"), (r"concert", r"2180"),
    (r"documentary", r"2181"), (r"tv_show", r"2182"), (r"movie", r"2183"),
    (r"series", r"2184"), (r"show", r"2185"), (r"sport", r"2186"),
    (r"videoclip", r"2187"),
    (r"audiobook", r"2151"), (r"comics", r"2153"), (r"books", r"2154"),
    (r"manga", r"2155"), (r"press", r"2156"),
    (r"karaoke", r"2147"), (r"samples", r"2149"), (r"podcast", r"2150"),
    (r"games_linux", r"2159"), (r"games_mac", r"2160"), (r"games_microsoft", r"2162"),
    (r"games_nintendo", r"2163"), (r"games_sony", r"2164"), (r"games_windows", r"2161"),
    (r"training", r"2176"), (r"software_linux", r"2171"), (r"software_mac", r"2172"),
    (r"software_windows", r"2173"),
    (r"nulled", r"2300"), (r"wordpress", r"2301"), (r"php_scripts", r"2302"),
    (r"3d_printing", r"2200"), (r"3d_objects", r"2201"), (r"3d_characters", r"2202"),
    (r"gps", r"2143"), (r"gps_apps", r"2168"), (r"gps_maps", r"2169"),
    (r"emulation", r"2141"), (r"emulator", r"2157"), (r"roms", r"2158") ]

/-- Python str.isdigit (ASCII model: nonempty and all digits). -/
def pyIsDigitStr (s : String) : Bool := ! s.isEmpty && s.toList.all Char.isDigit

/-- yggapi._resolve_category_id (yggapi.py lines 456-480): standard
table, then extended table, then a verbatim all-digit id that is a key
of the id-to-name table, else the empty string. -/
def resolve_category_id (category : String) : String :=
  match CATEGORY_MAPPING.lookup category with
  | some v => v
  | none =>
    match EXTENDED_CATEGORY_MAPPING.lookup category with
    | some v => v
    | none =>
      if pyIsDigitStr category && (YGG_CATEGORY_NAMES.lookup category).isSome then category
      else (r"")

/-- yggapi._parse_date (yggapi.py lines 523-544).  The two strptime calls
are modelled as Option-valued parameters: pz is strptime with format
`%Y-%m-%dT%H:%M:%S%z` composed with .timestamp(), pn the same without %z
(local-time interpretation); none models the ValueError that the
corresponding except clause catches.  The final fallback is the current
wall-clock time, the now parameter. -/
def parse_date (pz pn : String → Option Int) (now : Int) (s : String) : Int :=
  match pz s with
  | some t => t
  | none =>
    match pn s with
    | some t => t
    | none => now

/-- Modelled from the spec of claim C3 (the claim's own words, for the
counterexample only): strip exactly one trailing slash from a match. -/
def rstripOneSlash (s : Str) : Str :=
  match s.reverse with
  | c :: rest => if c == '/' then rest.reverse else s
  | [] => s

/-- Well-formedness domain for the amended claim C1: cache records that
are missing, unreadable, or non-JSON, or parse to a JSON object whose
timestamp field (the empty-string default when absent) is a string that
fromisoformat either rejects or reads as an offset-naive datetime.
Outside this domain get_cached_url raises (see the C1 counterexample). -/
def cacheWellFormed (iso : Str → IsoParse) : CacheFileState → Prop
  | .missing => True
  | .unreadable => True
  | .badJson => True
  | .parsed (.obj fields) =>
    match objGet fields tsKey (Json.str []) with
    | .str s =>
      match iso s with
      | .aware _ => False
      | _ => True
    | _ => False
  | .parsed _ => False

/-- Modelled from the spec's contract for ExpiringURLCache.get (the
amended claim C1): the cached value iff the record is a JSON object with
a truthy url and a string timestamp parsing as an offset-naive datetime
with now - ts < ttl; no value otherwise. -/
def cacheAnswer (iso : Str → IsoParse) (now ttl : Int) : CacheFileState → Option Json
  | .parsed (.obj fields) =>
    match objGet fields tsKey (Json.str []) with
    | .str s =>
      match iso s with
      | .naive t =>
        let u := objGet fields urlKey (Json.str [])
        if now - t < ttl && u.truthy then some u else none
      | _ => none
    | _ => none
  | _ => none

/-- A fromisoformat model that rejects every string. -/
def isoNone : Str → IsoParse := fun _ => IsoParse.invalid

/-- A fromisoformat model accepting exactly the string T0, as naive time 0. -/
def isoT0 : Str → IsoParse := fun s =>
  if s = (r"T0").toList then IsoParse.naive 0 else IsoParse.invalid

/-- A concrete valid cache record: url u0, timestamp T0. -/
def goodCacheFile : CacheFileState :=
  CacheFileState.parsed (Json.obj
    [ (urlKey, Json.str ((r"https://www.yggtorrent.fi").toList)),
      (tsKey, Json.str ((r"T0").toList)) ])

/-- A cache file that parses to a JSON array: valid JSON, no fields. -/
def arrayCacheFile : CacheFileState :=
  CacheFileState.parsed (Json.arr [ Json.num 1 ])

/-- The response body `<a href="https://www.yggtorrent.org/">` of the
concrete example in claim C3. -/
def anchorBody : Str :=
  (r"<a href=").toList ++ [ dq ] ++ (r"https://www.yggtorrent.org/").toList
    ++ [ dq, '>' ]

/-- A response body whose only match ends in a double slash:
`<a href="https://sub.yggtorrent.org//">`.  Pattern 1 fails (the host
does not start with an optional www. before yggtorrent), pattern 3
captures the whole href value. -/
def doubleSlashBody : Str :=
  (r"<a href=").toList ++ [ dq ] ++ (r"https://sub.yggtorrent.org//").toList
    ++ [ dq, '>' ]

/-- A fallback url used in concrete instances. -/
def fallback0 : Str := (r"https://www.yggtorrent.org").toList

/-- The raw pattern-3 capture on doubleSlashBody. -/
def dsCapture : Str := (r"https://sub.yggtorrent.org//").toList

/-- The url the code produces on doubleSlashBody (all slashes stripped). -/
def dsStripped : Str := (r"https://sub.yggtorrent.org").toList

/-- The raw pattern-1 match on anchorBody. -/
def anchorCapture : Str := (r"https://www.yggtorrent.org/").toList

/-- The url the code produces on anchorBody. -/
def anchorTarget : Str := (r"https://www.yggtorrent.org").toList

/-- A successfully matched literal lowers to the lowered pattern literal. -/
theorem stripLit_lower : ∀ {lit s t r : Str}, stripLit lit s = some (t, r) →
    lowerStr t = lowerStr lit := by
  intro lit
  induction lit with
  | nil =>
    intro s t r h
    simp only [stripLit, Option.some.injEq, Prod.mk.injEq] at h
    rw [← h.1]
  | cons l ls ih =>
    intro s t r h
    cases s with
    | nil => simp [stripLit] at h
    | cons c cs =>
      simp only [stripLit] at h
      by_cases hci : charCI c l
      · rw [if_pos hci] at h
        cases hm : stripLit ls cs with
        | none => rw [hm] at h; simp at h
        | some pr =>
          rw [hm] at h
          simp only [Option.some.injEq, Prod.mk.injEq] at h
          rw [← h.1]
          have hcl : c.toLower = l.toLower := by
            have := hci
            simp only [charCI, beq_iff_eq] at this
            exact this
          simp only [lowerStr, List.map_cons, hcl]
          have := ih (t := pr.1) (r := pr.2) (by rw [hm])
          simp only [lowerStr] at this
          rw [this]
      · rw [if_neg hci] at h
        simp at h

/-- The consumed piece of matchAfterScheme contains the product name. -/
theorem matchAfterScheme_contains {r2 t3 r3 : Str}
    (h : matchAfterScheme r2 = some (t3, r3)) : yggLit <:+: lowerStr t3 := by
  have hygg : yggLit <:+: lowerStr ((r"yggtorrent.").toList) := by decide
  unfold matchAfterScheme at h
  cases hw : stripLit ((r"www.").toList) r2 with
  | some pr =>
    obtain ⟨a, ra⟩ := pr
    rw [hw] at h
    simp only at h
    cases hy : stripLit ((r"yggtorrent.").toList) ra with
    | some pr2 =>
      obtain ⟨b, rb⟩ := pr2
      rw [hy] at h
      simp only [Option.some.injEq, Prod.mk.injEq] at h
      rw [← h.1, lowerStr, List.map_append]
      have hb : yggLit <:+: lowerStr b := by
        rw [stripLit_lower hy]; exact hygg
      exact hb.trans (List.suffix_append _ _).isInfix
    | none =>
      rw [hy] at h
      simp only at h
      cases hy2 : stripLit ((r"yggtorrent.").toList) r2 with
      | some pr2 =>
        obtain ⟨b, rb⟩ := pr2
        rw [hy2] at h
        simp only [Option.some.injEq, Prod.mk.injEq] at h
        rw [← h.1, stripLit_lower hy2]
        exact hygg
      | none => rw [hy2] at h; simp at h
  | none =>
    rw [hw] at h
    simp only at h
    cases hy2 : stripLit ((r"yggtorrent.").toList) r2 with
    | some pr2 =>
      obtain ⟨b, rb⟩ := pr2
      rw [hy2] at h
      simp only [Option.some.injEq, Prod.mk.injEq] at h
      rw [← h.1, stripLit_lower hy2]
      exact hygg
    | none => rw [hy2] at h; simp at h

/-- Every pattern-1 match contains the product name case-insensitively. -/
theorem p1At_contains : ∀ {s m : Str}, p1At s = some m → yggLit <:+: lowerStr m := by
  intro s m h
  unfold p1At at h
  cases hp : stripHttpPrefix s with
  | none => rw [hp] at h; simp at h
  | some pr =>
    obtain ⟨t12, r2⟩ := pr
    rw [hp] at h
    simp only at h
    cases hm : matchAfterScheme r2 with
    | none => rw [hm] at h; simp at h
    | some pr2 =>
      obtain ⟨t3, r3⟩ := pr2
      rw [hm] at h
      simp only at h
      have h3 : yggLit <:+: lowerStr t3 := matchAfterScheme_contains hm
      by_cases hl : (r3.takeWhile Char.isAlpha).length < 2
      · rw [if_pos hl] at h; simp at h
      · rw [if_neg hl] at h
        have step : ∀ x : Str, yggLit <:+: lowerStr (t12 ++ (t3 ++ x)) := by
          intro x
          simp only [lowerStr, List.map_append]
          exact ((h3.trans (List.prefix_append _ _).isInfix).trans
            (List.suffix_append _ _).isInfix)
        split at h <;>
          (rename_i heq; injection h with h; rw [← h]; exact step _)

/-- Every capture of the quoted-span group contains the product name. -/
theorem captureAfterQuote_contains : ∀ {b : Bool} {s cap rest : Str},
    captureAfterQuote b s = some (cap, rest) → yggLit <:+: lowerStr cap := by
  intro b s cap rest h
  unfold captureAfterQuote at h
  cases hp : stripHttpPrefix s with
  | none => rw [hp] at h; simp at h
  | some pr =>
    obtain ⟨tp, r⟩ := pr
    rw [hp] at h
    simp only at h
    split at h
    · rename_i hcond
      simp only [Option.some.injEq, Prod.mk.injEq] at h
      have hspan : containsYgg (r.takeWhile fun c => ! (c == dq || (b && c == sq))) = true :=
        (Bool.and_eq_true _ _ |>.mp hcond).1
      have : yggLit <:+: lowerStr (r.takeWhile fun c => ! (c == dq || (b && c == sq))) :=
        of_decide_eq_true hspan
      rw [← h.1, lowerStr, List.map_append]
      exact this.trans (List.suffix_append _ _).isInfix
    · simp at h

/-- Every pattern-2 capture contains the product name. -/
theorem p2At_contains : ∀ {s m : Str}, p2At s = some m → yggLit <:+: lowerStr m := by
  intro s m h
  unfold p2At at h
  cases h1 : stripLit ((r"<meta").toList) s with
  | none => rw [h1] at h; simp at h
  | some pr1 =>
    obtain ⟨t1, r1⟩ := pr1
    rw [h1] at h; simp only at h
    cases h2 : ws1 r1 with
    | none => rw [h2] at h; simp at h
    | some r2 =>
      rw [h2] at h; simp only at h
      cases h3 : stripLit ((r"property=").toList) r2 with
      | none => rw [h3] at h; simp at h
      | some pr3 =>
        obtain ⟨t3, r3⟩ := pr3
        rw [h3] at h; simp only at h
        cases h4 : stripQuote r3 with
        | none => rw [h4] at h; simp at h
        | some r4 =>
          rw [h4] at h; simp only at h
          cases h5 : stripLit ((r"og:url").toList) r4 with
          | none => rw [h5] at h; simp at h
          | some pr5 =>
            obtain ⟨t5, r5⟩ := pr5
            rw [h5] at h; simp only at h
            cases h6 : stripQuote r5 with
            | none => rw [h6] at h; simp at h
            | some r6 =>
              rw [h6] at h; simp only at h
              cases h7 : ws1 r6 with
              | none => rw [h7] at h; simp at h
              | some r7 =>
                rw [h7] at h; simp only at h
                cases h8 : stripLit ((r"content=").toList) r7 with
                | none => rw [h8] at h; simp at h
                | some pr8 =>
                  obtain ⟨t8, r8⟩ := pr8
                  rw [h8] at h; simp only at h
                  cases h9 : stripQuote r8 with
                  | none => rw [h9] at h; simp at h
                  | some r9 =>
                    rw [h9] at h; simp only at h
                    cases h10 : captureAfterQuote true r9 with
                    | none => rw [h10] at h; simp at h
                    | some pr10 =>
                      obtain ⟨cap, rest⟩ := pr10
                      rw [h10] at h
                      simp only [Option.some.injEq] at h
                      rw [← h]
                      exact captureAfterQuote_contains h10

/-- Every pattern-3 capture contains the product name. -/
theorem p3At_contains : ∀ {s m : Str}, p3At s = some m → yggLit <:+: lowerStr m := by
  intro s m h
  unfold p3At at h
  cases h1 : stripLit ((r"href=").toList) s with
  | none => rw [h1] at h; simp at h
  | some pr1 =>
    obtain ⟨t1, r1⟩ := pr1
    rw [h1] at h; simp only at h
    cases h2 : stripQuote r1 with
    | none => rw [h2] at h; simp at h
    | some r2 =>
      rw [h2] at h; simp only at h
      cases h3 : captureAfterQuote true r2 with
      | none => rw [h3] at h; simp at h
      | some pr3 =>
        obtain ⟨cap, rest⟩ := pr3
        rw [h3] at h
        simp only [Option.some.injEq] at h
        rw [← h]
        exact captureAfterQuote_contains h3

/-- Every pattern-4 capture contains the product name. -/
theorem p4At_contains : ∀ {s m : Str}, p4At s = some m → yggLit <:+: lowerStr m := by
  intro s m h
  unfold p4At at h
  cases h1 : stripDQuote s with
  | none => rw [h1] at h; simp at h
  | some r1 =>
    rw [h1] at h; simp only at h
    cases h2 : stripLit ((r"website").toList) r1 with
    | none => rw [h2] at h; simp at h
    | some pr2 =>
      obtain ⟨t2, r2⟩ := pr2
      rw [h2] at h; simp only at h
      cases h3 : stripDQuote r2 with
      | none => rw [h3] at h; simp at h
      | some r3 =>
        rw [h3] at h; simp only at h
        cases h4 : ws0 r3 with
        | nil => rw [h4] at h; simp at h
        | cons c r5 =>
          rw [h4] at h; simp only at h
          by_cases hc : c == ':'
          · rw [if_pos hc] at h
            cases h5 : stripDQuote (ws0 r5) with
            | none => rw [h5] at h; simp at h
            | some r7 =>
              rw [h5] at h; simp only at h
              cases h6 : captureAfterQuote false r7 with
              | none => rw [h6] at h; simp at h
              | some pr6 =>
                obtain ⟨cap, rest⟩ := pr6
                rw [h6] at h
                simp only [Option.some.injEq] at h
                rw [← h]
                exact captureAfterQuote_contains h6
          · rw [if_neg hc] at h; simp at h

/-- A scanFirst success comes from an anchored success at some suffix. -/
theorem scanFirst_some {m : Str → Option Str} : ∀ {s t : Str},
    scanFirst m s = some t → ∃ u, m u = some t := by
  intro s
  induction s with
  | nil => intro t h; exact ⟨[], h⟩
  | cons c rest ih =>
    intro t h
    unfold scanFirst at h
    cases hm : m (c :: rest) with
    | some t2 =>
      rw [hm] at h
      simp only at h
      exact ⟨c :: rest, by rw [hm]; exact h⟩
    | none => rw [hm] at h; exact ih h

/-- An infix without slashes survives removal of a leading all-slash block. -/
theorem infix_of_slash_block : ∀ (w : Str), (∀ c ∈ w, c = '/') → ∀ q u : Str,
    '/' ∉ q → q <:+: w ++ u → q <:+: u := by
  intro w
  induction w with
  | nil => intro _ q u _ h; simpa using h
  | cons a w ih =>
    intro hw q u hq h
    have ha : a = '/' := hw a (by simp)
    rw [List.cons_append] at h
    rcases List.infix_cons_iff.mp h with hpre | hinf
    · cases q with
      | nil => exact List.nil_infix
      | cons x t =>
        have hx : x = a := (List.cons_prefix_cons.mp hpre).1
        have hmem : '/' ∈ x :: t := by
          rw [← ha, ← hx]
          exact List.mem_cons_self x t
        exact absurd hmem hq
    · exact ih (fun c hc => hw c (List.mem_cons_of_mem a hc)) q u hq hinf

/-- Removing trailing slashes (Python rstrip) keeps the product name:
validation at yggapi.py line 330 cannot fail after line 328. -/
theorem contains_rstripSlash : ∀ {m : Str}, yggLit <:+: lowerStr m →
    yggLit <:+: lowerStr (rstripSlash m) := by
  intro m h
  have hdecomp : m = rstripSlash m ++ (m.reverse.takeWhile (fun c => c == '/')).reverse := by
    calc m = m.reverse.reverse := (List.reverse_reverse m).symm
    _ = (m.reverse.takeWhile (fun c => c == '/')
          ++ m.reverse.dropWhile (fun c => c == '/')).reverse := by
        rw [List.takeWhile_append_dropWhile]
    _ = (m.reverse.dropWhile (fun c => c == '/')).reverse
          ++ (m.reverse.takeWhile (fun c => c == '/')).reverse :=
        List.reverse_append _ _
  have hslash : ∀ c ∈ lowerStr (m.reverse.takeWhile (fun c => c == '/')).reverse, c = '/' := by
    intro c hc
    obtain ⟨c2, hc2, hmap⟩ := List.mem_map.mp hc
    have hmem : c2 ∈ m.reverse.takeWhile (fun c => c == '/') := List.mem_reverse.mp hc2
    have hp := List.mem_takeWhile_imp hmem
    have hc2eq : c2 = '/' := by simpa using hp
    rw [← hmap, hc2eq]
    decide
  rw [hdecomp] at h
  simp only [lowerStr, List.map_append] at h
  have h2 : yggLit.reverse <:+:
      (List.map Char.toLower (m.reverse.takeWhile (fun c => c == '/')).reverse).reverse
        ++ (List.map Char.toLower (rstripSlash m)).reverse := by
    have := List.reverse_infix.mpr h
    rwa [List.reverse_append] at this
  have hq : '/' ∉ yggLit.reverse := by decide
  have hw : ∀ c ∈ (List.map Char.toLower (m.reverse.takeWhile (fun c => c == '/')).reverse).reverse,
      c = '/' := by
    intro c hc
    exact hslash c (by simpa [lowerStr] using List.mem_reverse.mp hc)
  have h3 := infix_of_slash_block _ hw _ _ hq h2
  have h4 := List.reverse_infix.mp h3
  simpa [lowerStr] using h4

/-- After a scanFirst success, the stripped match passes the line-330
validation check. -/
theorem scan_validates {pAt : Str → Option Str}
    (hp : ∀ {s m : Str}, pAt s = some m → yggLit <:+: lowerStr m)
    {body m : Str} (h : scanFirst pAt body = some m) :
    containsYgg (rstripSlash m) = true := by
  obtain ⟨u, hu⟩ := scanFirst_some h
  exact decide_eq_true (contains_rstripSlash (hp hu))

/-- The extraction loop equals: take the first pattern match in order,
strip trailing slashes (the validation branch never fails). -/
theorem extract_eq_first : ∀ body : Str,
    extractYggUrl body = (firstPatternMatch body).map rstripSlash := by
  intro body
  unfold extractYggUrl patternList firstPatternMatch
  cases h1 : scanFirst p1At body with
  | some m =>
    have hv := scan_validates (fun h => p1At_contains h) h1
    simp [runPatterns, h1, hv]
  | none =>
    cases h2 : scanFirst p2At body with
    | some m =>
      have hv := scan_validates (fun h => p2At_contains h) h2
      simp [runPatterns, h1, h2, hv]
    | none =>
      cases h3 : scanFirst p3At body with
      | some m =>
        have hv := scan_validates (fun h => p3At_contains h) h3
        simp [runPatterns, h1, h2, h3, hv]
      | none =>
        cases h4 : scanFirst p4At body with
        | some m =>
          have hv := scan_validates (fun h => p4At_contains h) h4
          simp [runPatterns, h1, h2, h3, h4, hv]
        | none =>
          simp [runPatterns, h1, h2, h3, h4]

/-- A cache hit is always truthy (line 274 checks `and cached_url`). -/
theorem cached_truthy : ∀ {iso : Str → IsoParse} {now ttl : Int}
    {file : CacheFileState} {u : Json},
    get_cached_url iso now ttl file = Except.ok (some u) → u.truthy = true := by
  intro iso now ttl file u h
  cases file with
  | missing => simp [get_cached_url] at h
  | unreadable => simp [get_cached_url] at h
  | badJson => simp [get_cached_url] at h
  | parsed j =>
    cases j with
    | obj fields =>
      simp only [get_cached_url] at h
      cases hts : objGet fields tsKey (Json.str []) with
      | str s =>
        rw [hts] at h
        simp only at h
        cases hiso : iso s with
        | invalid => rw [hiso] at h; simp at h
        | aware t => rw [hiso] at h; simp at h
        | naive t =>
          rw [hiso] at h
          simp only at h
          split at h
          · rename_i hcond
            simp only [Except.ok.injEq, Option.some.injEq] at h
            rw [← h]
            exact (Bool.and_eq_true _ _ |>.mp hcond).2
          · simp at h
      | obj f2 => rw [hts] at h; simp at h
      | arr a2 => rw [hts] at h; simp at h
      | num n2 => rw [hts] at h; simp at h
      | boolv b2 => rw [hts] at h; simp at h
      | null => rw [hts] at h; simp at h
    | arr a => simp [get_cached_url] at h
    | str s => simp [get_cached_url] at h
    | num n => simp [get_cached_url] at h
    | boolv b => simp [get_cached_url] at h
    | null => simp [get_cached_url] at h

/-- Claim C1 (counterexample): a cache file holding the valid JSON array
[1] has no url field, so the claim says get_cached_url returns no value
and never raises; the code instead lets AttributeError (from
cache_data.get on a list) escape. -/
theorem c1_counterexample :
    get_cached_url isoNone 0 86400 arrayCacheFile = Except.error PyExn.attributeError := rfl

/-- Claim C1 (amended): restricted to cache states that are missing,
unreadable, non-JSON, or parse to a JSON object whose timestamp field is
a string read as offset-naive or rejected, get_cached_url returns the
cached url iff the record has a truthy url and a timestamp parsing as an
offset-naive datetime with now - timestamp < ttl, and returns no value,
without raising, in every other such case.  (Outside that domain the
code can raise: a non-object record raises AttributeError, a non-string
or offset-aware timestamp raises TypeError.) -/
theorem c1_cache_get_amended (iso : Str → IsoParse) (now ttl : Int)
    (file : CacheFileState) (h : cacheWellFormed iso file) :
    get_cached_url iso now ttl file = Except.ok (cacheAnswer iso now ttl file) := by
  cases file with
  | missing => rfl
  | unreadable => rfl
  | badJson => rfl
  | parsed j =>
    cases j with
    | obj fields =>
      simp only [cacheWellFormed] at h
      simp only [get_cached_url, cacheAnswer]
      cases hts : objGet fields tsKey (Json.str []) with
      | str s =>
        rw [hts] at h
        simp only at h ⊢
        cases hiso : iso s with
        | invalid => rfl
        | aware t => rw [hiso] at h; simp at h
        | naive t =>
          simp only
          by_cases hc : (now - t < ttl && (objGet fields urlKey (Json.str [])).truthy) = true
          · rw [if_pos hc, if_pos hc]
          · rw [if_neg hc, if_neg hc]
      | obj f2 => rw [hts] at h; exact h.elim
      | arr a2 => rw [hts] at h; exact h.elim
      | num n2 => rw [hts] at h; exact h.elim
      | boolv b2 => rw [hts] at h; exact h.elim
      | null => rw [hts] at h; exact h.elim
    | arr a => exact h.elim
    | str s2 => exact h.elim
    | num n2 => exact h.elim
    | boolv b2 => exact h.elim
    | null => exact h.elim

/-- Witness for c1_cache_get_amended at a concrete valid record. -/
theorem c1_witness :
    cacheWellFormed isoT0 goodCacheFile ∧
    get_cached_url isoT0 0 86400 goodCacheFile =
      Except.ok (cacheAnswer isoT0 0 86400 goodCacheFile) :=
  ⟨by exact trivial, c1_cache_get_amended isoT0 0 86400 goodCacheFile (by exact trivial)⟩

/-- Claim C2: whenever the cache yields a URL (necessarily non-empty and
unexpired), get_ygg_url returns it unchanged, performs zero retrieve_url
calls and writes nothing to the cache. -/
theorem c2_cache_hit_no_fetch (iso : Str → IsoParse) (now ttl : Int)
    (file : CacheFileState) (fetch : FetchResult) (fallback : Str) (u : Json)
    (h : get_cached_url iso now ttl file = Except.ok (some u)) :
    get_ygg_url iso now ttl file fetch fallback = Except.ok (u, 0, none) := by
  unfold get_ygg_url
  rw [h]
  simp [cached_truthy h]

/-- Witness for c2_cache_hit_no_fetch at a concrete valid cache record. -/
theorem c2_witness :
    get_cached_url isoT0 0 86400 goodCacheFile =
      Except.ok (some (Json.str ((r"https://www.yggtorrent.fi").toList))) ∧
    get_ygg_url isoT0 0 86400 goodCacheFile FetchResult.raise fallback0 =
      Except.ok (Json.str ((r"https://www.yggtorrent.fi").toList), 0, none) :=
  ⟨rfl, c2_cache_hit_no_fetch isoT0 0 86400 goodCacheFile FetchResult.raise fallback0 _ rfl⟩

/-- Claim C3 (counterexample): on a body whose only match is the anchor
capture https://sub.yggtorrent.org//, the code strips BOTH trailing
slashes (str.rstrip removes every one), not exactly one as the claim
states. -/
theorem c3_counterexample :
    firstPatternMatch doubleSlashBody = some dsCapture ∧
    extractYggUrl doubleSlashBody = some dsStripped ∧
    dsStripped ≠ rstripOneSlash dsCapture := by
  refine ⟨by decide, by decide, by decide⟩

/-- Claim C3 (amended): on every fetched body, discovery takes the first
match of the first matching rule (in the fixed order: bare domain, og:url
meta tag, anchor href, website JSON key, all case-insensitive), strips
ALL trailing slashes from it, caches and returns the result; in
particular a body containing the anchor yields
https://www.yggtorrent.org, written to the cache. -/
theorem c3_extraction_order_and_strip :
    (∀ (iso : Str → IsoParse) (now ttl : Int) (file : CacheFileState) (body fb m : Str),
      get_cached_url iso now ttl file = Except.ok none →
      firstPatternMatch body = some m →
      get_ygg_url iso now ttl file (FetchResult.ok body) fb =
        Except.ok (Json.str (rstripSlash m), 1, some (rstripSlash m))) ∧
    firstPatternMatch anchorBody = some anchorCapture ∧
    extractYggUrl anchorBody = some anchorTarget ∧
    get_ygg_url isoNone 0 86400 CacheFileState.missing (FetchResult.ok anchorBody) fallback0 =
      Except.ok (Json.str anchorTarget, 1, some anchorTarget) := by
  refine ⟨?_, by decide, by decide, rfl⟩
  intro iso now ttl file body fb m hmiss hfm
  unfold get_ygg_url
  rw [hmiss]
  simp only [discoverViaFetch]
  rw [extract_eq_first body, hfm]
  rfl

/-- Witness for c3_extraction_order_and_strip at the anchor body. -/
theorem c3_witness :
    get_cached_url isoNone 0 86400 CacheFileState.missing = Except.ok none ∧
    firstPatternMatch anchorBody = some anchorCapture ∧
    get_ygg_url isoNone 0 86400 CacheFileState.missing (FetchResult.ok anchorBody) fallback0 =
      Except.ok (Json.str (rstripSlash anchorCapture), 1, some (rstripSlash anchorCapture)) :=
  ⟨rfl, by decide,
    c3_extraction_order_and_strip.1 isoNone 0 86400 CacheFileState.missing anchorBody
      fallback0 anchorCapture rfl (by decide)⟩

/-- Claim C4: on a cache miss, if the fetch raises or no extraction rule
yields a validated match, get_ygg_url returns exactly the fallback and
does not raise (and writes nothing to the cache). -/
theorem c4_fallback_on_failure (iso : Str → IsoParse) (now ttl : Int)
    (file : CacheFileState) (fetch : FetchResult) (fb : Str)
    (hmiss : get_cached_url iso now ttl file = Except.ok none)
    (hfail : fetch = FetchResult.raise ∨
      ∀ body, fetch = FetchResult.ok body → extractYggUrl body = none) :
    get_ygg_url iso now ttl file fetch fb = Except.ok (Json.str fb, 1, none) := by
  unfold get_ygg_url
  rw [hmiss]
  simp only
  rcases hfail with h | h
  · rw [h]; rfl
  · cases fetch with
    | raise => rfl
    | ok body =>
      simp only [discoverViaFetch]
      rw [h body rfl]

/-- Witness for c4_fallback_on_failure: missing cache file, raising fetch. -/
theorem c4_witness :
    get_cached_url isoNone 0 86400 CacheFileState.missing = Except.ok none ∧
    get_ygg_url isoNone 0 86400 CacheFileState.missing FetchResult.raise fallback0 =
      Except.ok (Json.str fallback0, 1, none) :=
  ⟨rfl, c4_fallback_on_failure isoNone 0 86400 CacheFileState.missing FetchResult.raise
    fallback0 rfl (Or.inl rfl)⟩


/-- Claim C5: the page fetch attempts the transport at most MAX_RETRIES
times with a RETRY_DELAY_SECONDS sleep between attempts; a capability
raising on every call is invoked exactly MAX_RETRIES times and yields
zero records (with MAX_RETRIES - 1 sleeps in between); a transport
success whose body parses as a non-list returns an empty page
immediately, with one call and no retry. -/
theorem c5_fetch_retry :
    (∀ attempts : Nat → AttemptOutcome, (∀ i, attempts i = AttemptOutcome.raise) →
      fetch_page attempts = ([], MAX_RETRIES, [RETRY_DELAY_SECONDS, RETRY_DELAY_SECONDS])) ∧
    (∀ (attempts : Nat → AttemptOutcome) (j : Json), attempts 0 = AttemptOutcome.parsed j →
      (∀ items, j ≠ Json.arr items) →
      fetch_page attempts = ([], 1, [])) ∧
    (∀ (attempts : Nat → AttemptOutcome) (i fuel : Nat),
      (fetchAttempts attempts i fuel).2.1 ≤ fuel) := by
  refine ⟨?_, ?_, ?_⟩
  · intro attempts h
    show fetchAttempts attempts 0 3 = _
    simp [fetchAttempts, h 0, h 1, h 2, MAX_RETRIES]
  · intro attempts j h hne
    show fetchAttempts attempts 0 3 = _
    cases j with
    | arr items => exact absurd rfl (hne items)
    | obj f => simp [fetchAttempts, h]
    | str s2 => simp [fetchAttempts, h]
    | num n2 => simp [fetchAttempts, h]
    | boolv b2 => simp [fetchAttempts, h]
    | null => simp [fetchAttempts, h]
  · intro attempts i fuel
    induction fuel generalizing i with
    | zero => simp [fetchAttempts]
    | succ fl ih =>
      simp only [fetchAttempts]
      cases attempts i with
      | parsed j =>
        cases j with
        | arr items => simp
        | obj f => simp
        | str s2 => simp
        | num n2 => simp
        | boolv b2 => simp
        | null => simp
      | raise =>
        cases fl with
        | zero => simp
        | succ fl2 =>
          simp only
          have := ih (i + 1)
          omega
      | badJson =>
        cases fl with
        | zero => simp
        | succ fl2 =>
          simp only
          have := ih (i + 1)
          omega

/-- Witness for c5_fetch_retry: an always-raising capability and a
non-list body. -/
theorem c5_witness :
    fetch_page (fun _ => AttemptOutcome.raise) =
      ([], MAX_RETRIES, [RETRY_DELAY_SECONDS, RETRY_DELAY_SECONDS]) ∧
    fetch_page (fun _ => AttemptOutcome.parsed (Json.num 0)) = ([], 1, []) :=
  ⟨c5_fetch_retry.1 (fun _ => AttemptOutcome.raise) (fun _ => rfl),
   c5_fetch_retry.2.1 (fun _ => AttemptOutcome.parsed (Json.num 0)) (Json.num 0) rfl
     (fun _ h => Json.noConfusion h)⟩

/-- Claim C6: the loop fetches the next page iff the page was full and
within the page limit; an empty page stops at once with nothing emitted
and no further fetch; a short page stops regardless of maxPage. -/
theorem c6_pagination :
    (∀ (perPage maxPage page : Int) (c : Nat),
      should_continue_pagination perPage maxPage page c = true ↔
        ((c : Int) ≥ perPage ∧ (maxPage ≤ 0 ∨ page < maxPage))) ∧
    (∀ (α : Type) (pages : Int → List α) (perPage maxPage page : Int) (fuel : Nat),
      pages page = [] →
      searchFrom pages perPage maxPage page (fuel + 1) = ([], [page], page)) ∧
    (∀ (α : Type) (pages : Int → List α) (perPage maxPage page : Int) (fuel : Nat),
      pages page ≠ [] →
      should_continue_pagination perPage maxPage page (pages page).length = true →
      searchFrom pages perPage maxPage page (fuel + 1) =
        (pages page ++ (searchFrom pages perPage maxPage (page + 1) fuel).1,
         page :: (searchFrom pages perPage maxPage (page + 1) fuel).2.1,
         (searchFrom pages perPage maxPage (page + 1) fuel).2.2)) ∧
    (∀ (α : Type) (pages : Int → List α) (perPage maxPage page : Int) (fuel : Nat),
      pages page ≠ [] →
      should_continue_pagination perPage maxPage page (pages page).length = false →
      searchFrom pages perPage maxPage page (fuel + 1) = (pages page, [page], page)) ∧
    (∀ (perPage maxPage page : Int) (c : Nat), (c : Int) < perPage →
      should_continue_pagination perPage maxPage page c = false) := by
  refine ⟨?_, ?_, ?_, ?_, ?_⟩
  · intro perPage maxPage page c
    simp [should_continue_pagination, ge_iff_le]
  · intro α pages perPage maxPage page fuel h
    simp [searchFrom, h]
  · intro α pages perPage maxPage page fuel hne hcont
    have hemp : (pages page).isEmpty = false := by
      cases hp : pages page with
      | nil => exact absurd hp hne
      | cons a l => simp
    simp [searchFrom, hemp, hcont]
  · intro α pages perPage maxPage page fuel hne hcont
    have hemp : (pages page).isEmpty = false := by
      cases hp : pages page with
      | nil => exact absurd hp hne
      | cons a l => simp
    simp [searchFrom, hemp, hcont]
  · intro perPage maxPage page c h
    have : ¬ ((c : Int) ≥ perPage) := by omega
    simp [should_continue_pagination, this]

/-- Witness for c6_pagination: one empty page at page 1 stops at once. -/
theorem c6_witness :
    (fun _ : Int => ([] : List Nat)) 1 = ([] : List Nat) ∧
    searchFrom (fun _ : Int => ([] : List Nat)) 100 0 1 1 = ([], [1], 1) :=
  ⟨rfl, c6_pagination.2.1 Nat (fun _ => []) 100 0 1 0 rfl⟩

/-- Claim C7: category resolution checks the standard table, then the
extended table, then accepts an all-digit name that is a key of the
id-to-name table verbatim, else yields the empty string; concretely
movies resolves via the standard table to 2183, manga via the extended
table to 2155, 2183 verbatim, bogus to the empty string. -/
theorem c7_category_resolution :
    resolve_category_id (r"movies") = (r"2183") ∧
    CATEGORY_MAPPING.lookup (r"movies") = some (r"2183") ∧
    resolve_category_id (r"manga") = (r"2155") ∧
    CATEGORY_MAPPING.lookup (r"manga") = none ∧
    EXTENDED_CATEGORY_MAPPING.lookup (r"manga") = some (r"2155") ∧
    resolve_category_id (r"2183") = (r"2183") ∧
    resolve_category_id (r"bogus") = (r"") ∧
    (∀ c v, CATEGORY_MAPPING.lookup c = some v → resolve_category_id c = v) ∧
    (∀ c v, CATEGORY_MAPPING.lookup c = none →
      EXTENDED_CATEGORY_MAPPING.lookup c = some v → resolve_category_id c = v) ∧
    (∀ c, CATEGORY_MAPPING.lookup c = none → EXTENDED_CATEGORY_MAPPING.lookup c = none →
      resolve_category_id c =
        (if pyIsDigitStr c && (YGG_CATEGORY_NAMES.lookup c).isSome then c else (r""))) := by
  refine ⟨by decide, by decide, by decide, by decide, by decide, by decide, by decide,
    ?_, ?_, ?_⟩
  · intro c v h
    unfold resolve_category_id
    rw [h]
  · intro c v h1 h2
    unfold resolve_category_id
    rw [h1, h2]
  · intro c h1 h2
    unfold resolve_category_id
    rw [h1, h2]

/-- Witness for c7_category_resolution: the tv category resolves through
the standard table. -/
theorem c7_witness :
    CATEGORY_MAPPING.lookup (r"tv") = some (r"2184") ∧
    resolve_category_id (r"tv") = (r"2184") :=
  ⟨by decide, c7_category_resolution.2.2.2.2.2.2.2.1 (r"tv") (r"2184") (by decide)⟩

/-- Claim C8: date parsing first tries the ISO format with a numeric
UTC-offset suffix, on failure the same format without an offset, and on
failure returns the current wall-clock time; the function is total
(never raises on its string domain). -/
theorem c8_parse_date_order (pz pn : String → Option Int) (now : Int) (s : String) :
    (∀ t, pz s = some t → parse_date pz pn now s = t) ∧
    (pz s = none → ∀ t, pn s = some t → parse_date pz pn now s = t) ∧
    (pz s = none → pn s = none → parse_date pz pn now s = now) := by
  refine ⟨?_, ?_, ?_⟩
  · intro t h
    unfold parse_date
    rw [h]
  · intro h1 t h2
    unfold parse_date
    rw [h1, h2]
  · intro h1 h2
    unfold parse_date
    rw [h1, h2]

/-- Witness for c8_parse_date_order: the with-offset parser fails, the
without-offset parser yields 5. -/
theorem c8_witness :
    parse_date (fun _ => none) (fun _ => some 5) 9 (r"x") = 5 :=
  (c8_parse_date_order (fun _ => none) (fun _ => some 5) 9 (r"x")).2.1 rfl 5 rfl

/-- Claim C9: search overwrites the current page with 1 before fetching,
so its outcome is independent of the state a previous search left
behind, and its first fetched page is page 1. -/
theorem c9_search_resets_page :
    (∀ (α : Type) (pages : Int → List α) (perPage maxPage : Int)
       (s0 s1 : SearchState) (fuel : Nat),
      search pages perPage maxPage s0 fuel = search pages perPage maxPage s1 fuel) ∧
    (∀ (α : Type) (pages : Int → List α) (perPage maxPage : Int)
       (s0 : SearchState) (fuel : Nat),
      (search pages perPage maxPage s0 (fuel + 1)).2.1.head? = some 1) := by
  constructor
  · intro α pages perPage maxPage s0 s1 fuel
    rfl
  · intro α pages perPage maxPage s0 fuel
    have hstep : ∀ (page : Int) (fl : Nat),
        (searchFrom pages perPage maxPage page (fl + 1)).2.1.head? = some page := by
      intro page fl
      simp only [searchFrom]
      by_cases h1 : (pages page).isEmpty
      · simp [h1]
      · by_cases h2 : should_continue_pagination perPage maxPage page (pages page).length
        · simp [h1, h2]
        · simp [h1, h2]
    simpa [search] using hstep 1 fuel

/-- Claim C10: any string matched (or captured) by any of the four
extraction patterns still contains the product name case-insensitively
after trailing-slash stripping, so the line-330 validation check always
succeeds and its failure branch is unreachable. -/
theorem c10_validation_always_passes (body m : Str)
    (h : scanFirst p1At body = some m ∨ scanFirst p2At body = some m ∨
         scanFirst p3At body = some m ∨ scanFirst p4At body = some m) :
    containsYgg (rstripSlash m) = true := by
  rcases h with h | h | h | h
  · exact scan_validates (fun hh => p1At_contains hh) h
  · exact scan_validates (fun hh => p2At_contains hh) h
  · exact scan_validates (fun hh => p3At_contains hh) h
  · exact scan_validates (fun hh => p4At_contains hh) h

/-- Witness for c10_validation_always_passes at the anchor body. -/
theorem c10_witness :
    scanFirst p1At anchorBody = some anchorCapture ∧
    containsYgg (rstripSlash anchorCapture) = true :=
  ⟨by decide, c10_validation_always_passes anchorBody anchorCapture (Or.inl (by decide))⟩

end Ygg
